import Mathlib

/-!
Verification of the proxy/path addressing layer of the analyser rules
(`core/src/analyser/rules/proxies.rs`), the rule solver contract, and the
ONNX graph parsing (`onnx/src/model.rs`).

Shallow embedding conventions:
- A Rust `Path` (ordered sequence of signed integers) is a `List Int`.
- A Rust `usize` index is a `Nat`; `to_isize().unwrap()` is modelled by
  `toIsize : Nat → Option Int` on a 64-bit platform (`isize::MAX = 2^63 - 1`),
  `none` standing for the panic on overflow.
- The memoizing `Cache` (whose implementation lives outside the sources at
  hand) is modelled from the spec as an association list; `cacheGet` returns,
  besides the value and the updated cache, how many times the supplied
  constructor was invoked (0 or 1), so that the construct-once contract is
  statable.
- The `Index` operator implementations, which in Rust mutate the cache behind
  interior mutability, become state-passing functions returning
  `Option (child × updated-proxy × constructor-invocations)`.
-/

namespace Tract

/-- A path: an ordered sequence of signed integers addressing a location in a
per-node fact tree (`analyser/rules/path.rs`). -/
abbrev Path := List Int

/-- `isize::MAX` on a 64-bit platform. -/
def isizeMax : Nat := 2 ^ 63 - 1

/-- `usize::to_isize()`: `some` of the value if it fits in a signed machine
integer, `none` (panic on `unwrap`) otherwise. -/
def toIsize (n : Nat) : Option Int :=
  if n ≤ isizeMax then some (n : Int) else none

/-- Modelled from the spec: the memoizing `Cache` container of
`analyser/rules/cache.rs` (not among the sources at hand), keyed by index.
Represented as an association list from index to child. -/
abbrev CacheMap (α : Type) := List (Nat × α)

/-- Modelled from the spec: lookup of a key in the cache. -/
def cacheLookup {α : Type} : CacheMap α → Nat → Option α
  | [], _ => none
  | (j, v) :: rest, i => if j = i then some v else cacheLookup rest i

/-- Modelled from the spec: `Cache::get(index, constructor)` — if `index` is
present return the stored value, otherwise invoke `constructor()` exactly
once, store the result and return it.  The third component counts how many
times the constructor was invoked during this call. -/
def cacheGet {α : Type} (m : CacheMap α) (i : Nat) (ctor : Unit → α) :
    α × CacheMap α × Nat :=
  match cacheLookup m i with
  | some v => (v, m, 0)
  | none => let v := ctor (); (v, ((i, v) :: m), 1)

/-- `IntProxy`: a proxy for any integer-like value; carries only its path. -/
structure IntProxy where
  path : Path

/-- `IntProxy::new`. -/
def IntProxy.new (p : Path) : IntProxy := ⟨p⟩

/-- `TypeProxy`: a proxy for a tensor datum_type. -/
structure TypeProxy where
  path : Path

/-- `TypeProxy::new`. -/
def TypeProxy.new (p : Path) : TypeProxy := ⟨p⟩

/-- `DimProxy`: a proxy for one dimension of a shape. -/
structure DimProxy where
  path : Path

/-- `DimProxy::new`. -/
def DimProxy.new (p : Path) : DimProxy := ⟨p⟩

/-- `ShapeProxy`: a proxy for a tensor shape, with a cache of `DimProxy`
children. -/
structure ShapeProxy where
  dims : CacheMap DimProxy
  path : Path

/-- `ShapeProxy::new`: fresh cache, given path. -/
def ShapeProxy.new (p : Path) : ShapeProxy := ⟨[], p⟩

/-- `ElementProxy`: a proxy for a tensor element; recursively indexable, with
a cache of nested `ElementProxy` children. -/
inductive ElementProxy : Type where
  | mk (sub : List (Nat × ElementProxy)) (path : List Int)

/-- The cache field of an `ElementProxy`. -/
def ElementProxy.sub : ElementProxy → CacheMap ElementProxy
  | ElementProxy.mk s _ => s

/-- The path field of an `ElementProxy`. -/
def ElementProxy.path : ElementProxy → Path
  | ElementProxy.mk _ p => p

/-- `ElementProxy::new`: fresh cache, given path. -/
def ElementProxy.new (p : Path) : ElementProxy := ElementProxy.mk [] p

/-- `ValueProxy`: a proxy for the whole tensor value, with a cache of
`ElementProxy` children and a distinguished `root` integer proxy. -/
structure ValueProxy where
  sub : CacheMap ElementProxy
  root : IntProxy
  path : Path

/-- `ValueProxy::new`: `root` is an `IntProxy` at `path ++ [-1]`. -/
def ValueProxy.new (p : Path) : ValueProxy :=
  ⟨[], IntProxy.new (p ++ [-1]), p⟩

/-- `SharedTensorProxy`: a proxy for a tensor, exposing `datum_type`, `rank`,
`shape` and `value` children computed at construction time. -/
structure SharedTensorProxy where
  datum_type : TypeProxy
  rank : IntProxy
  shape : ShapeProxy
  value : ValueProxy
  path : Path

/-- `SharedTensorProxy::new`: children at `path ++ [0]` (datum_type),
`path ++ [1]` (rank), `path ++ [2]` (shape), `path ++ [3]` (value). -/
def SharedTensorProxy.new (p : Path) : SharedTensorProxy :=
  ⟨TypeProxy.new (p ++ [0]), IntProxy.new (p ++ [1]),
   ShapeProxy.new (p ++ [2]), ValueProxy.new (p ++ [3]), p⟩

/-- `SharedTensorsProxy`: a proxy for a vector of tensors, exposing a `len`
integer proxy and a cache of `SharedTensorProxy` children. -/
structure SharedTensorsProxy where
  len : IntProxy
  tensors : CacheMap SharedTensorProxy
  path : Path

/-- `SharedTensorsProxy::new`: `len` is an `IntProxy` at `path ++ [-1]`. -/
def SharedTensorsProxy.new (p : Path) : SharedTensorsProxy :=
  ⟨IntProxy.new (p ++ [-1]), [], p⟩

/-- `impl Index<usize> for SharedTensorsProxy`: child path is
`self.path ++ [index.to_isize().unwrap()]`; lazily constructed and cached.
Returns the child, the updated proxy, and the constructor-invocation count;
`none` models the panic when the index exceeds `isize::MAX`. -/
def SharedTensorsProxy.index (s : SharedTensorsProxy) (i : Nat) :
    Option (SharedTensorProxy × SharedTensorsProxy × Nat) :=
  (toIsize i).map fun k =>
    let r := cacheGet s.tensors i (fun _ => SharedTensorProxy.new (s.path ++ [k]))
    (r.1, ⟨s.len, r.2.1, s.path⟩, r.2.2)

/-- `impl Index<usize> for ShapeProxy`: child `DimProxy` at
`self.path ++ [index.to_isize().unwrap()]`, lazily constructed and cached. -/
def ShapeProxy.index (s : ShapeProxy) (i : Nat) :
    Option (DimProxy × ShapeProxy × Nat) :=
  (toIsize i).map fun k =>
    let r := cacheGet s.dims i (fun _ => DimProxy.new (s.path ++ [k]))
    (r.1, ⟨r.2.1, s.path⟩, r.2.2)

/-- `impl Index<()> for ValueProxy`: returns the `root` integer proxy. -/
def ValueProxy.indexUnit (v : ValueProxy) : IntProxy := v.root

/-- `impl Index<usize> for ValueProxy`: child `ElementProxy` at
`self.path ++ [index.to_isize().unwrap()]`, lazily constructed and cached. -/
def ValueProxy.index (v : ValueProxy) (i : Nat) :
    Option (ElementProxy × ValueProxy × Nat) :=
  (toIsize i).map fun k =>
    let r := cacheGet v.sub i (fun _ => ElementProxy.new (v.path ++ [k]))
    (r.1, ⟨r.2.1, v.root, v.path⟩, r.2.2)

/-- `impl Index<usize> for ElementProxy`: child `ElementProxy` at
`self.path ++ [index.to_isize().unwrap()]`, lazily constructed and cached. -/
def ElementProxy.index (e : ElementProxy) (i : Nat) :
    Option (ElementProxy × ElementProxy × Nat) :=
  (toIsize i).map fun k =>
    let r := cacheGet e.sub i (fun _ => ElementProxy.new (e.path ++ [k]))
    (r.1, ElementProxy.mk r.2.1 e.path, r.2.2)

/-- Iterated element indexing `e[i₁][i₂]…`, following the child at each step
(`value[1][6][2]`-style nested access). -/
def ElementProxy.chain (e : ElementProxy) : List Nat → Option ElementProxy
  | [] => some e
  | i :: is =>
    match e.index i with
    | some r => r.1.chain is
    | none => none

/-- Nested indexing of a `ValueProxy` at `i :: is`, returning the path of the
final element proxy. -/
def ValueProxy.chainPath (v : ValueProxy) (i : Nat) (is : List Nat) :
    Option Path :=
  match v.index i with
  | some r => (r.1.chain is).map ElementProxy.path
  | none => none

/-! ### Basic lemmas on `toIsize` and the cache -/

/-- An index that fits in `isize` converts successfully. -/
theorem toIsize_le {i : Nat} (h : i ≤ isizeMax) : toIsize i = some (i : Int) := by
  simp [toIsize, h]

/-- An index beyond `isize::MAX` makes the conversion panic (`none`). -/
theorem toIsize_gt {i : Nat} (h : isizeMax < i) : toIsize i = none := by
  simp [toIsize, Nat.not_le.mpr h]

/-- A successful conversion returns the index itself. -/
theorem toIsize_eq_some {i : Nat} {k : Int} (h : toIsize i = some k) :
    k = (i : Int) ∧ i ≤ isizeMax := by
  by_cases hle : i ≤ isizeMax
  · rw [toIsize_le hle] at h
    exact ⟨(Option.some_injective _ h).symm, hle⟩
  · rw [toIsize_gt (Nat.not_le.mp hle)] at h
    cases h

/-- Cache hit: the stored value is returned, the cache is unchanged, and the
constructor is not invoked. -/
theorem cacheGet_hit {α : Type} {m : CacheMap α} {i : Nat} {v : α}
    (ctor : Unit → α) (h : cacheLookup m i = some v) :
    cacheGet m i ctor = (v, m, 0) := by
  simp [cacheGet, h]

/-- Cache miss: the constructor is invoked exactly once and its result is
stored under the index. -/
theorem cacheGet_miss {α : Type} {m : CacheMap α} {i : Nat}
    (ctor : Unit → α) (h : cacheLookup m i = none) :
    cacheGet m i ctor = (ctor (), ((i, ctor ()) :: m), 1) := by
  simp [cacheGet, h]

/-- After any `cacheGet`, the cache maps the index to the returned value. -/
theorem cacheGet_lookup {α : Type} (m : CacheMap α) (i : Nat) (ctor : Unit → α) :
    cacheLookup (cacheGet m i ctor).2.1 i = some (cacheGet m i ctor).1 := by
  cases h : cacheLookup m i with
  | some v => simp [cacheGet_hit ctor h, h]
  | none => simp [cacheGet_miss ctor h, cacheLookup]

/-- Generic path-coherence transfer through `cacheGet`: if every cached child
at key `j` has path `P j` and the constructor builds a child with path `P i`,
then the returned child has path `P i` and the updated cache is again
coherent. -/
theorem cacheGet_wf {α : Type} (f : α → Path) {m : CacheMap α} {i : Nat}
    (ctor : Unit → α) (P : Nat → Path)
    (hwf : ∀ j c, cacheLookup m j = some c → f c = P j)
    (hctor : f (ctor ()) = P i) :
    f (cacheGet m i ctor).1 = P i ∧
      ∀ j c, cacheLookup (cacheGet m i ctor).2.1 j = some c → f c = P j := by
  cases h : cacheLookup m i with
  | some v =>
    rw [cacheGet_hit ctor h]
    exact ⟨hwf i v h, hwf⟩
  | none =>
    rw [cacheGet_miss ctor h]
    refine ⟨hctor, ?_⟩
    intro j c hj
    simp only [cacheLookup] at hj
    by_cases hij : i = j
    · subst hij
      simp at hj
      rw [← hj]
      exact hctor
    · rw [if_neg hij] at hj
      exact hwf j c hj

/-! ### Well-formedness of proxy caches

A proxy cache is reachable in the Rust code only through the `Index`
operators, which always store a freshly constructed child at the path
`self.path ++ [index]`.  These predicates capture exactly that invariant. -/

/-- Every cached tensor child of a `SharedTensorsProxy` sits at
`self.path ++ [index]`. -/
def SharedTensorsProxy.WF (s : SharedTensorsProxy) : Prop :=
  ∀ j c, cacheLookup s.tensors j = some c → c.path = s.path ++ [(j : Int)]

/-- Every cached dimension child of a `ShapeProxy` sits at
`self.path ++ [index]`. -/
def ShapeProxy.WF (s : ShapeProxy) : Prop :=
  ∀ j c, cacheLookup s.dims j = some c → c.path = s.path ++ [(j : Int)]

/-- Every cached element child of a `ValueProxy` sits at
`self.path ++ [index]`. -/
def ValueProxy.WF (v : ValueProxy) : Prop :=
  ∀ j c, cacheLookup v.sub j = some c → c.path = v.path ++ [(j : Int)]

/-- Every cached element child of an `ElementProxy` sits at
`self.path ++ [index]`. -/
def ElementProxy.WF (e : ElementProxy) : Prop :=
  ∀ j c, cacheLookup e.sub j = some c → c.path = e.path ++ [(j : Int)]

/-- A freshly constructed `SharedTensorsProxy` has an empty, hence coherent,
cache. -/
theorem sharedTensorsProxy_new_wf (p : Path) : (SharedTensorsProxy.new p).WF := by
  intro j c h
  simp [SharedTensorsProxy.new, cacheLookup] at h

/-- A freshly constructed `ShapeProxy` has an empty, hence coherent, cache. -/
theorem shapeProxy_new_wf (p : Path) : (ShapeProxy.new p).WF := by
  intro j c h
  simp [ShapeProxy.new, cacheLookup] at h

/-- A freshly constructed `ValueProxy` has an empty, hence coherent, cache. -/
theorem valueProxy_new_wf (p : Path) : (ValueProxy.new p).WF := by
  intro j c h
  simp [ValueProxy.new, cacheLookup] at h

/-- A freshly constructed `ElementProxy` has an empty, hence coherent,
cache. -/
theorem elementProxy_new_wf (p : Path) : (ElementProxy.new p).WF := by
  intro j c h
  simp [ElementProxy.new, ElementProxy.sub, cacheLookup] at h

/-! ### Characterization of the `Index` operators -/

/-- A returned tensor child sits at `self.path ++ [index]`; coherence of the
cache and the proxy path are preserved. -/
theorem sharedTensorsProxy_index_spec {s : SharedTensorsProxy} {i : Nat}
    {r : SharedTensorProxy × SharedTensorsProxy × Nat}
    (hwf : s.WF) (h : s.index i = some r) :
    r.1.path = s.path ++ [(i : Int)] ∧ r.2.1.WF ∧ r.2.1.path = s.path := by
  rw [SharedTensorsProxy.index, Option.map_eq_some'] at h
  obtain ⟨k, hk, hr⟩ := h
  obtain ⟨hki, -⟩ := toIsize_eq_some hk
  subst hki
  have hg := cacheGet_wf SharedTensorProxy.path
    (fun _ => SharedTensorProxy.new (s.path ++ [(i : Int)]))
    (fun j => s.path ++ [(j : Int)]) hwf rfl
  subst hr
  exact ⟨hg.1, hg.2, rfl⟩

/-- A returned dimension child sits at `self.path ++ [index]`; coherence of
the cache and the proxy path are preserved. -/
theorem shapeProxy_index_spec {s : ShapeProxy} {i : Nat}
    {r : DimProxy × ShapeProxy × Nat}
    (hwf : s.WF) (h : s.index i = some r) :
    r.1.path = s.path ++ [(i : Int)] ∧ r.2.1.WF ∧ r.2.1.path = s.path := by
  rw [ShapeProxy.index, Option.map_eq_some'] at h
  obtain ⟨k, hk, hr⟩ := h
  obtain ⟨hki, -⟩ := toIsize_eq_some hk
  subst hki
  have hg := cacheGet_wf DimProxy.path
    (fun _ => DimProxy.new (s.path ++ [(i : Int)]))
    (fun j => s.path ++ [(j : Int)]) hwf rfl
  subst hr
  exact ⟨hg.1, hg.2, rfl⟩

/-- A returned element child of a value proxy sits at `self.path ++ [index]`;
coherence of the cache and the proxy path are preserved. -/
theorem valueProxy_index_spec {v : ValueProxy} {i : Nat}
    {r : ElementProxy × ValueProxy × Nat}
    (hwf : v.WF) (h : v.index i = some r) :
    r.1.path = v.path ++ [(i : Int)] ∧ r.2.1.WF ∧ r.2.1.path = v.path := by
  rw [ValueProxy.index, Option.map_eq_some'] at h
  obtain ⟨k, hk, hr⟩ := h
  obtain ⟨hki, -⟩ := toIsize_eq_some hk
  subst hki
  have hg := cacheGet_wf ElementProxy.path
    (fun _ => ElementProxy.new (v.path ++ [(i : Int)]))
    (fun j => v.path ++ [(j : Int)]) hwf rfl
  subst hr
  exact ⟨hg.1, hg.2, rfl⟩

/-- A returned element child of an element proxy sits at
`self.path ++ [index]`; coherence of the cache and the proxy path are
preserved. -/
theorem elementProxy_index_spec {e : ElementProxy} {i : Nat}
    {r : ElementProxy × ElementProxy × Nat}
    (hwf : e.WF) (h : e.index i = some r) :
    r.1.path = e.path ++ [(i : Int)] ∧ r.2.1.WF ∧ r.2.1.path = e.path := by
  rw [ElementProxy.index, Option.map_eq_some'] at h
  obtain ⟨k, hk, hr⟩ := h
  obtain ⟨hki, -⟩ := toIsize_eq_some hk
  subst hki
  have hg := cacheGet_wf ElementProxy.path
    (fun _ => ElementProxy.new (e.path ++ [(i : Int)]))
    (fun j => e.path ++ [(j : Int)]) hwf rfl
  subst hr
  exact ⟨hg.1, hg.2, rfl⟩

/-- Indexing a freshly constructed `ElementProxy` at a representable index
constructs and caches the child at `path ++ [i]`. -/
theorem elementProxy_new_index {i : Nat} (p : Path) (hi : i ≤ isizeMax) :
    (ElementProxy.new p).index i =
      some (ElementProxy.new (p ++ [(i : Int)]),
        ElementProxy.mk [(i, ElementProxy.new (p ++ [(i : Int)]))] p, 1) := by
  rw [ElementProxy.index, toIsize_le hi]
  rfl

/-- Indexing a freshly constructed `ValueProxy` at a representable index
constructs and caches the element child at `path ++ [i]`. -/
theorem valueProxy_new_index {i : Nat} (q : Path) (hi : i ≤ isizeMax) :
    (ValueProxy.new q).index i =
      some (ElementProxy.new (q ++ [(i : Int)]),
        ⟨[(i, ElementProxy.new (q ++ [(i : Int)]))], IntProxy.new (q ++ [-1]), q⟩, 1) := by
  rw [ValueProxy.index, toIsize_le hi]
  rfl

/-- Chained element indexing from a fresh element proxy appends one path
component per index. -/
theorem elementProxy_new_chain (is : List Nat) :
    ∀ p : Path, (∀ j ∈ is, j ≤ isizeMax) →
    ((ElementProxy.new p).chain is).map ElementProxy.path =
      some (p ++ is.map (fun n => (n : Int))) := by
  induction is with
  | nil =>
    intro p _
    simp [ElementProxy.chain, ElementProxy.new, ElementProxy.path]
  | cons i is ih =>
    intro p h
    have hi : i ≤ isizeMax := h i (List.mem_cons_self i is)
    have hrest : ∀ j ∈ is, j ≤ isizeMax := fun j hj => h j (List.mem_cons_of_mem i hj)
    rw [ElementProxy.chain, elementProxy_new_index p hi]
    simpa [List.append_assoc] using ih (p ++ [(i : Int)]) hrest

/-! ### Claims about the proxy layer -/

/-- C1: Constructing a tensor-aggregate proxy (`SharedTensorProxy`) at any
path `Q` yields its four named children at exactly the paths `Q ++ [0]`
(datum_type), `Q ++ [1]` (rank), `Q ++ [2]` (shape) and `Q ++ [3]` (value),
computed at construction time; in particular, for the proxy obtained at path
`[0, 0]` by indexing the tensor list at `[0]` with `0`, datum_type has path
`[0, 0, 0]`, rank `[0, 0, 1]`, shape `[0, 0, 2]` and value `[0, 0, 3]`. -/
theorem c1_sharedTensorProxy_children (q : Path) :
    (SharedTensorProxy.new q).datum_type.path = q ++ [0] ∧
    (SharedTensorProxy.new q).rank.path = q ++ [1] ∧
    (SharedTensorProxy.new q).shape.path = q ++ [2] ∧
    (SharedTensorProxy.new q).value.path = q ++ [3] ∧
    ((SharedTensorsProxy.new [0]).index 0).map
        (fun r => (r.1.datum_type.path, r.1.rank.path, r.1.shape.path, r.1.value.path)) =
      some ([0, 0, 0], [0, 0, 1], [0, 0, 2], [0, 0, 3]) :=
  ⟨rfl, rfl, rfl, rfl, rfl⟩

/-- C2: For every indexable proxy (tensor-list, shape, value, element) whose
cache is coherent, the child returned by the indexing operator at index `i`
has path exactly the proxy's path concatenated with `i`, so nested indexing
composes paths by concatenation; e.g. the shape proxy at `[0, 0, 2]` indexed
at `2` gives `[0, 0, 2, 2]`. -/
theorem c2_index_appends_component :
    (∀ (s : SharedTensorsProxy) (i : Nat) r, s.WF → s.index i = some r →
      r.1.path = s.path ++ [(i : Int)]) ∧
    (∀ (s : ShapeProxy) (i : Nat) r, s.WF → s.index i = some r →
      r.1.path = s.path ++ [(i : Int)]) ∧
    (∀ (v : ValueProxy) (i : Nat) r, v.WF → v.index i = some r →
      r.1.path = v.path ++ [(i : Int)]) ∧
    (∀ (e : ElementProxy) (i : Nat) r, e.WF → e.index i = some r →
      r.1.path = e.path ++ [(i : Int)]) ∧
    ((ShapeProxy.new [0, 0, 2]).index 2).map (fun r => r.1.path) = some [0, 0, 2, 2] := by
  refine ⟨?_, ?_, ?_, ?_, rfl⟩
  · intro s i r hwf h
    exact (sharedTensorsProxy_index_spec hwf h).1
  · intro s i r hwf h
    exact (shapeProxy_index_spec hwf h).1
  · intro v i r hwf h
    exact (valueProxy_index_spec hwf h).1
  · intro e i r hwf h
    exact (elementProxy_index_spec hwf h).1

/-- Witness for C2: the shape proxy at `[0, 0, 2]`, freshly constructed,
indexed at `2`, returns the dimension proxy at `[0, 0, 2, 2]`. -/
theorem c2_index_appends_component_witness :
    (DimProxy.new [0, 0, 2, 2]).path = (ShapeProxy.new [0, 0, 2]).path ++ [(2 : Int)] :=
  c2_index_appends_component.2.1 (ShapeProxy.new [0, 0, 2]) 2
    (DimProxy.new [0, 0, 2, 2], ⟨[(2, DimProxy.new [0, 0, 2, 2])], [0, 0, 2]⟩, 1)
    (shapeProxy_new_wf [0, 0, 2]) rfl

/-- C3: For a tensor-list proxy constructed at path `[0]`, the length proxy
has path `[0, -1]` (generally, parent path plus the sentinel `-1`), and
indexing the list at `i` yields a tensor-aggregate proxy with path `[0, i]`;
in particular index `0` gives `[0, 0]` and index `2` gives `[0, 2]`. -/
theorem c3_sharedTensorsProxy_paths :
    (∀ p : Path, (SharedTensorsProxy.new p).len.path = p ++ [-1]) ∧
    (SharedTensorsProxy.new [0]).len.path = [0, -1] ∧
    (∀ i : Nat, i ≤ isizeMax →
      ((SharedTensorsProxy.new [0]).index i).map (fun r => r.1.path) =
        some ([0] ++ [(i : Int)])) ∧
    ((SharedTensorsProxy.new [0]).index 0).map (fun r => r.1.path) = some [0, 0] ∧
    ((SharedTensorsProxy.new [0]).index 2).map (fun r => r.1.path) = some [0, 2] := by
  refine ⟨fun p => rfl, rfl, ?_, rfl, rfl⟩
  intro i hi
  rw [SharedTensorsProxy.index, toIsize_le hi]
  rfl

/-- Witness for C3: indexing the fresh tensor-list proxy at `5` yields the
tensor proxy at `[0, 5]`. -/
theorem c3_sharedTensorsProxy_paths_witness :
    ((SharedTensorsProxy.new [0]).index 5).map (fun r => r.1.path) =
      some ([0] ++ [(5 : Int)]) :=
  c3_sharedTensorsProxy_paths.2.2.1 5 (by decide)

/-- C4: For a value proxy constructed at path `Q`, the root-metadata access
(indexing by `()`) returns an integer leaf proxy at `Q ++ [-1]`, and nested
element indexing `value[i][j][k]…` yields a proxy whose path is `Q` followed
by `i, j, k` in order; for `Q = [0, 0, 3]`: root is `[0, 0, 3, -1]`,
`value[0][1]` is `[0, 0, 3, 0, 1]` and `value[1][2][3]` is
`[0, 0, 3, 1, 2, 3]`. -/
theorem c4_valueProxy_nested_paths :
    (∀ q : Path, (ValueProxy.new q).indexUnit.path = q ++ [-1]) ∧
    (ValueProxy.new [0, 0, 3]).indexUnit.path = [0, 0, 3, -1] ∧
    (∀ (q : Path) (i : Nat) (is : List Nat), i ≤ isizeMax →
      (∀ j ∈ is, j ≤ isizeMax) →
      (ValueProxy.new q).chainPath i is =
        some (q ++ (i :: is).map (fun n => (n : Int)))) ∧
    (ValueProxy.new [0, 0, 3]).chainPath 0 [] = some [0, 0, 3, 0] ∧
    (ValueProxy.new [0, 0, 3]).chainPath 0 [1] = some [0, 0, 3, 0, 1] ∧
    (ValueProxy.new [0, 0, 3]).chainPath 1 [2, 3] = some [0, 0, 3, 1, 2, 3] := by
  refine ⟨fun q => rfl, rfl, ?_, rfl, rfl, rfl⟩
  intro q i is hi hrest
  rw [ValueProxy.chainPath, valueProxy_new_index q hi]
  simpa [List.append_assoc] using elementProxy_new_chain is (q ++ [(i : Int)]) hrest

/-- Witness for C4: `value[1][2][3]` from the value proxy at `[0, 0, 3]` has
path `[0, 0, 3, 1, 2, 3]`. -/
theorem c4_valueProxy_nested_paths_witness :
    (ValueProxy.new [0, 0, 3]).chainPath 1 [2, 3] =
      some ([0, 0, 3] ++ ([1, 2, 3] : List Nat).map (fun n => (n : Int))) :=
  c4_valueProxy_nested_paths.2.2.1 [0, 0, 3] 1 [2, 3] (by decide) (by decide)

/-- C6 counterexample: indexing the tensor-list proxy at `2 ^ 63` (an index
above `isize::MAX`) does not return a child proxy — `to_isize().unwrap()`
panics, modelled by `none` — so indexing does not always succeed. -/
theorem c6_counterexample :
    (SharedTensorsProxy.new [0]).index (2 ^ 63) = none ∧
    (ShapeProxy.new [0, 0, 2]).index (2 ^ 63) = none :=
  ⟨rfl, rfl⟩

/-- C6 (amended): for every index `i ≤ isize::MAX`, indexing a tensor-list or
shape proxy succeeds and — whatever length proxy and cache contents the proxy
holds — returns a child, whose path is `path ++ [i]` under cache coherence;
no bounds check against any length fact is performed (the length proxy does
not influence the result), so an out-of-range index relative to the logical
length is never detected by the proxy layer. -/
theorem c6_no_length_bounds_check :
    (∀ (len : IntProxy) (cache : CacheMap SharedTensorProxy) (p : Path) (i : Nat),
      i ≤ isizeMax → ∃ r, (SharedTensorsProxy.mk len cache p).index i = some r) ∧
    (∀ (cache : CacheMap DimProxy) (p : Path) (i : Nat),
      i ≤ isizeMax → ∃ r, (ShapeProxy.mk cache p).index i = some r) ∧
    (∀ (len1 len2 : IntProxy) (cache : CacheMap SharedTensorProxy) (p : Path) (i : Nat),
      ((SharedTensorsProxy.mk len1 cache p).index i).map (fun r => (r.1, r.2.2)) =
        ((SharedTensorsProxy.mk len2 cache p).index i).map (fun r => (r.1, r.2.2))) ∧
    (∀ (s : SharedTensorsProxy) (i : Nat), s.WF → i ≤ isizeMax →
      ∃ r, s.index i = some r ∧ r.1.path = s.path ++ [(i : Int)]) ∧
    (∀ (s : ShapeProxy) (i : Nat), s.WF → i ≤ isizeMax →
      ∃ r, s.index i = some r ∧ r.1.path = s.path ++ [(i : Int)]) := by
  refine ⟨?_, ?_, ?_, ?_, ?_⟩
  · intro len cache p i hi
    rw [SharedTensorsProxy.index, toIsize_le hi]
    exact ⟨_, rfl⟩
  · intro cache p i hi
    rw [ShapeProxy.index, toIsize_le hi]
    exact ⟨_, rfl⟩
  · intro len1 len2 cache p i
    rw [SharedTensorsProxy.index, SharedTensorsProxy.index]
    cases toIsize i with
    | none => rfl
    | some k => rfl
  · intro s i hwf hi
    have hex : ∃ r, s.index i = some r := by
      rw [SharedTensorsProxy.index, toIsize_le hi]
      exact ⟨_, rfl⟩
    obtain ⟨r, hr⟩ := hex
    exact ⟨r, hr, (sharedTensorsProxy_index_spec hwf hr).1⟩
  · intro s i hwf hi
    have hex : ∃ r, s.index i = some r := by
      rw [ShapeProxy.index, toIsize_le hi]
      exact ⟨_, rfl⟩
    obtain ⟨r, hr⟩ := hex
    exact ⟨r, hr, (shapeProxy_index_spec hwf hr).1⟩

/-- Witness for the amended C6: indexing a tensor-list proxy at `[0]` whose
length proxy reads `[7]` (an arbitrary, unrelated length address) at index
`9` succeeds. -/
theorem c6_no_length_bounds_check_witness :
    ∃ r, (SharedTensorsProxy.mk (IntProxy.new [7]) [] [0]).index 9 = some r :=
  c6_no_length_bounds_check.1 (IntProxy.new [7]) [] [0] 9 (by decide)

/-- C9: indexing converts the index with `to_isize().unwrap()`, so every
index above `isize::MAX` makes the indexing operation panic (`none`) instead
of returning a child, while every index at most `isize::MAX` makes the
`unwrap` succeed, and indexing returns a child. -/
theorem c9_index_isize_precondition :
    (∀ (s : SharedTensorsProxy) (i : Nat), isizeMax < i → s.index i = none) ∧
    (∀ (s : SharedTensorsProxy) (i : Nat), i ≤ isizeMax → (s.index i).isSome = true) ∧
    (∀ (s : ShapeProxy) (i : Nat), isizeMax < i → s.index i = none) ∧
    (∀ (s : ShapeProxy) (i : Nat), i ≤ isizeMax → (s.index i).isSome = true) ∧
    (∀ (v : ValueProxy) (i : Nat), isizeMax < i → v.index i = none) ∧
    (∀ (v : ValueProxy) (i : Nat), i ≤ isizeMax → (v.index i).isSome = true) ∧
    (∀ (e : ElementProxy) (i : Nat), isizeMax < i → e.index i = none) ∧
    (∀ (e : ElementProxy) (i : Nat), i ≤ isizeMax → (e.index i).isSome = true) := by
  refine ⟨?_, ?_, ?_, ?_, ?_, ?_, ?_, ?_⟩
  · intro s i hi
    rw [SharedTensorsProxy.index, toIsize_gt hi]
    rfl
  · intro s i hi
    rw [SharedTensorsProxy.index, toIsize_le hi]
    rfl
  · intro s i hi
    rw [ShapeProxy.index, toIsize_gt hi]
    rfl
  · intro s i hi
    rw [ShapeProxy.index, toIsize_le hi]
    rfl
  · intro v i hi
    rw [ValueProxy.index, toIsize_gt hi]
    rfl
  · intro v i hi
    rw [ValueProxy.index, toIsize_le hi]
    rfl
  · intro e i hi
    rw [ElementProxy.index, toIsize_gt hi]
    rfl
  · intro e i hi
    rw [ElementProxy.index, toIsize_le hi]
    rfl

/-- Witness for C9: at `2 ^ 63 > isize::MAX` the tensor-list indexing panics,
and at `3 ≤ isize::MAX` it returns a child. -/
theorem c9_index_isize_precondition_witness :
    (SharedTensorsProxy.new [0]).index (2 ^ 63) = none ∧
    ((SharedTensorsProxy.new [0]).index 3).isSome = true :=
  ⟨c9_index_isize_precondition.1 (SharedTensorsProxy.new [0]) (2 ^ 63) (by decide),
   c9_index_isize_precondition.2.1 (SharedTensorsProxy.new [0]) 3 (by decide)⟩

/-! ### Memoization: construct-once and stable identity -/

/-- `cacheGet` at a different key leaves the entry of `j` unchanged. -/
theorem cacheGet_lookup_other {α : Type} (m : CacheMap α) (i j : Nat)
    (ctor : Unit → α) (hne : i ≠ j) :
    cacheLookup (cacheGet m i ctor).2.1 j = cacheLookup m j := by
  cases h : cacheLookup m i with
  | some v => rw [cacheGet_hit ctor h]
  | none =>
    rw [cacheGet_miss ctor h]
    simp [cacheLookup, hne]

/-- Explicit form of tensor-list indexing at a representable index. -/
theorem sharedTensorsProxy_index_eq (s : SharedTensorsProxy) {i : Nat}
    (hi : i ≤ isizeMax) :
    s.index i =
      some ((cacheGet s.tensors i
          (fun _ => SharedTensorProxy.new (s.path ++ [(i : Int)]))).1,
        ⟨s.len, (cacheGet s.tensors i
          (fun _ => SharedTensorProxy.new (s.path ++ [(i : Int)]))).2.1, s.path⟩,
        (cacheGet s.tensors i
          (fun _ => SharedTensorProxy.new (s.path ++ [(i : Int)]))).2.2) := by
  rw [SharedTensorsProxy.index, toIsize_le hi]
  rfl

/-- Explicit form of shape indexing at a representable index. -/
theorem shapeProxy_index_eq (s : ShapeProxy) {i : Nat} (hi : i ≤ isizeMax) :
    s.index i =
      some ((cacheGet s.dims i (fun _ => DimProxy.new (s.path ++ [(i : Int)]))).1,
        ⟨(cacheGet s.dims i (fun _ => DimProxy.new (s.path ++ [(i : Int)]))).2.1,
          s.path⟩,
        (cacheGet s.dims i (fun _ => DimProxy.new (s.path ++ [(i : Int)]))).2.2) := by
  rw [ShapeProxy.index, toIsize_le hi]
  rfl

/-- Explicit form of value indexing at a representable index. -/
theorem valueProxy_index_eq (v : ValueProxy) {i : Nat} (hi : i ≤ isizeMax) :
    v.index i =
      some ((cacheGet v.sub i (fun _ => ElementProxy.new (v.path ++ [(i : Int)]))).1,
        ⟨(cacheGet v.sub i (fun _ => ElementProxy.new (v.path ++ [(i : Int)]))).2.1,
          v.root, v.path⟩,
        (cacheGet v.sub i (fun _ => ElementProxy.new (v.path ++ [(i : Int)]))).2.2) := by
  rw [ValueProxy.index, toIsize_le hi]
  rfl

/-- Re-indexing a tensor-list proxy at the same index returns the identical
cached child, leaves the proxy unchanged and does not invoke the
constructor. -/
theorem sharedTensorsProxy_index_idem {s : SharedTensorsProxy} {i : Nat}
    {r : SharedTensorProxy × SharedTensorsProxy × Nat}
    (h : s.index i = some r) : r.2.1.index i = some (r.1, r.2.1, 0) := by
  rw [SharedTensorsProxy.index, Option.map_eq_some'] at h
  obtain ⟨k, hk, hr⟩ := h
  obtain ⟨hki, hile⟩ := toIsize_eq_some hk
  subst hki
  subst hr
  rw [sharedTensorsProxy_index_eq _ hile]
  rw [cacheGet_hit _ (cacheGet_lookup s.tensors i _)]

/-- Re-indexing a shape proxy at the same index returns the identical cached
child, leaves the proxy unchanged and does not invoke the constructor. -/
theorem shapeProxy_index_idem {s : ShapeProxy} {i : Nat}
    {r : DimProxy × ShapeProxy × Nat}
    (h : s.index i = some r) : r.2.1.index i = some (r.1, r.2.1, 0) := by
  rw [ShapeProxy.index, Option.map_eq_some'] at h
  obtain ⟨k, hk, hr⟩ := h
  obtain ⟨hki, hile⟩ := toIsize_eq_some hk
  subst hki
  subst hr
  rw [shapeProxy_index_eq _ hile]
  rw [cacheGet_hit _ (cacheGet_lookup s.dims i _)]

/-- Re-indexing a value proxy at the same index returns the identical cached
element, leaves the proxy unchanged and does not invoke the constructor. -/
theorem valueProxy_index_idem {v : ValueProxy} {i : Nat}
    {r : ElementProxy × ValueProxy × Nat}
    (h : v.index i = some r) : r.2.1.index i = some (r.1, r.2.1, 0) := by
  rw [ValueProxy.index, Option.map_eq_some'] at h
  obtain ⟨k, hk, hr⟩ := h
  obtain ⟨hki, hile⟩ := toIsize_eq_some hk
  subst hki
  subst hr
  rw [valueProxy_index_eq _ hile]
  rw [cacheGet_hit _ (cacheGet_lookup v.sub i _)]

/-- A trace of indexing operations on a tensor-list proxy: perform the
accesses in order (a panic ends the trace), summing the constructor
invocations that occur at the observed index `i0`. -/
def SharedTensorsProxy.runCount (i0 : Nat) : SharedTensorsProxy → List Nat → Nat
  | _, [] => 0
  | s, i :: is =>
    match s.index i with
    | some r => (if i = i0 then r.2.2 else 0) + SharedTensorsProxy.runCount i0 r.2.1 is
    | none => 0

/-- The children handed out at the observed index `i0` during a trace of
indexing operations. -/
def SharedTensorsProxy.runChildren (i0 : Nat) :
    SharedTensorsProxy → List Nat → List SharedTensorProxy
  | _, [] => []
  | s, i :: is =>
    match s.index i with
    | some r =>
        (if i = i0 then [r.1] else []) ++ SharedTensorsProxy.runChildren i0 r.2.1 is
    | none => []

/-- Unfolding of `runCount` on a non-empty trace. -/
theorem sharedTensorsProxy_runCount_cons (i0 : Nat) (s : SharedTensorsProxy)
    (i : Nat) (is : List Nat) :
    SharedTensorsProxy.runCount i0 s (i :: is) =
      match s.index i with
      | some r =>
          (if i = i0 then r.2.2 else 0) + SharedTensorsProxy.runCount i0 r.2.1 is
      | none => 0 := rfl

/-- Unfolding of `runChildren` on a non-empty trace. -/
theorem sharedTensorsProxy_runChildren_cons (i0 : Nat) (s : SharedTensorsProxy)
    (i : Nat) (is : List Nat) :
    SharedTensorsProxy.runChildren i0 s (i :: is) =
      match s.index i with
      | some r =>
          (if i = i0 then [r.1] else []) ++
            SharedTensorsProxy.runChildren i0 r.2.1 is
      | none => [] := rfl

/-- Once the cache holds `c0` at `i0`, a trace invokes no further constructor
at `i0` and hands out only `c0` there. -/
theorem sharedTensorsProxy_run_hit (i0 : Nat) (c0 : SharedTensorProxy) :
    ∀ (is : List Nat) (s : SharedTensorsProxy),
      cacheLookup s.tensors i0 = some c0 →
      SharedTensorsProxy.runCount i0 s is = 0 ∧
      ∀ c ∈ SharedTensorsProxy.runChildren i0 s is, c = c0 := by
  intro is
  induction is with
  | nil =>
    intro s hl
    exact ⟨rfl, by simp [SharedTensorsProxy.runChildren]⟩
  | cons i is ih =>
    intro s hl
    rw [sharedTensorsProxy_runCount_cons, sharedTensorsProxy_runChildren_cons]
    by_cases hile : i ≤ isizeMax
    · rw [sharedTensorsProxy_index_eq s hile]
      by_cases hii : i = i0
      · subst hii
        rw [cacheGet_hit _ hl]
        have hrec := ih ⟨s.len, s.tensors, s.path⟩ hl
        refine ⟨by simpa using hrec.1, ?_⟩
        intro c hc
        simp at hc
        rcases hc with hc | hc
        · exact hc
        · exact hrec.2 c hc
      · have hl2 : cacheLookup (cacheGet s.tensors i
            (fun _ => SharedTensorProxy.new (s.path ++ [(i : Int)]))).2.1 i0 =
            some c0 := by
          rw [cacheGet_lookup_other s.tensors i i0 _ hii]
          exact hl
        have hrec := ih ⟨s.len, (cacheGet s.tensors i
            (fun _ => SharedTensorProxy.new (s.path ++ [(i : Int)]))).2.1, s.path⟩ hl2
        refine ⟨by simpa [hii] using hrec.1, ?_⟩
        intro c hc
        simp only [if_neg hii, List.nil_append] at hc
        exact hrec.2 c hc
    · rw [SharedTensorsProxy.index, toIsize_gt (Nat.not_le.mp hile)]
      exact ⟨rfl, by simp⟩

/-- From a cache with no entry at `i0`, any trace invokes the constructor at
`i0` at most once and hands out only the child constructed at
`path ++ [i0]`. -/
theorem sharedTensorsProxy_run_miss (i0 : Nat) (p : Path) :
    ∀ (is : List Nat) (s : SharedTensorsProxy), s.path = p →
      cacheLookup s.tensors i0 = none →
      SharedTensorsProxy.runCount i0 s is ≤ 1 ∧
      ∀ c ∈ SharedTensorsProxy.runChildren i0 s is,
        c = SharedTensorProxy.new (p ++ [(i0 : Int)]) := by
  intro is
  induction is with
  | nil =>
    intro s hp hl
    exact ⟨Nat.zero_le 1, by simp [SharedTensorsProxy.runChildren]⟩
  | cons i is ih =>
    intro s hp hl
    rw [sharedTensorsProxy_runCount_cons, sharedTensorsProxy_runChildren_cons]
    by_cases hile : i ≤ isizeMax
    · rw [sharedTensorsProxy_index_eq s hile]
      by_cases hii : i = i0
      · subst hii
        rw [cacheGet_miss _ hl]
        have hl2 : cacheLookup
            ((i, SharedTensorProxy.new (s.path ++ [(i : Int)])) :: s.tensors) i =
            some (SharedTensorProxy.new (s.path ++ [(i : Int)])) := by
          simp [cacheLookup]
        have hrec := sharedTensorsProxy_run_hit i
          (SharedTensorProxy.new (s.path ++ [(i : Int)])) is
          ⟨s.len, (i, SharedTensorProxy.new (s.path ++ [(i : Int)])) :: s.tensors,
            s.path⟩ hl2
        subst hp
        refine ⟨by simp [hrec.1], ?_⟩
        intro c hc
        simp at hc
        rcases hc with hc | hc
        · exact hc
        · exact hrec.2 c hc
      · have hl2 : cacheLookup (cacheGet s.tensors i
            (fun _ => SharedTensorProxy.new (s.path ++ [(i : Int)]))).2.1 i0 =
            none := by
          rw [cacheGet_lookup_other s.tensors i i0 _ hii]
          exact hl
        have hrec := ih ⟨s.len, (cacheGet s.tensors i
            (fun _ => SharedTensorProxy.new (s.path ++ [(i : Int)]))).2.1, s.path⟩
          hp hl2
        refine ⟨by simpa [hii] using hrec.1, ?_⟩
        intro c hc
        simp only [if_neg hii, List.nil_append] at hc
        exact hrec.2 c hc
    · rw [SharedTensorsProxy.index, toIsize_gt (Nat.not_le.mp hile)]
      exact ⟨Nat.zero_le 1, by simp⟩

/-- C5: Indexing the same tensor-list, shape, or value proxy at the same
index constructs the child at most once — the constructor passed to the cache
is invoked exactly once on the first access over the proxy's lifetime and
never again — and every such access returns the identical cached child, with
equal path: re-indexing returns the same child with zero constructor
invocations and an unchanged proxy; a fresh first access invokes the
constructor exactly once; and over any access trace from a fresh tensor-list
proxy the total constructor invocations at an index are at most one, every
child handed out there being the one constructed at `path ++ [i0]`. -/
theorem c5_memoized_construct_once :
    (∀ (s : SharedTensorsProxy) (i : Nat) r, s.index i = some r →
      r.2.1.index i = some (r.1, r.2.1, 0)) ∧
    (∀ (s : ShapeProxy) (i : Nat) r, s.index i = some r →
      r.2.1.index i = some (r.1, r.2.1, 0)) ∧
    (∀ (v : ValueProxy) (i : Nat) r, v.index i = some r →
      r.2.1.index i = some (r.1, r.2.1, 0)) ∧
    (∀ (p : Path) (i : Nat), i ≤ isizeMax →
      ((SharedTensorsProxy.new p).index i).map (fun r => r.2.2) = some 1 ∧
      ((ShapeProxy.new p).index i).map (fun r => r.2.2) = some 1 ∧
      ((ValueProxy.new p).index i).map (fun r => r.2.2) = some 1) ∧
    (∀ (p : Path) (i0 : Nat) (is : List Nat),
      SharedTensorsProxy.runCount i0 (SharedTensorsProxy.new p) is ≤ 1 ∧
      ∀ c ∈ SharedTensorsProxy.runChildren i0 (SharedTensorsProxy.new p) is,
        c = SharedTensorProxy.new (p ++ [(i0 : Int)])) := by
  refine ⟨?_, ?_, ?_, ?_, ?_⟩
  · intro s i r h
    exact sharedTensorsProxy_index_idem h
  · intro s i r h
    exact shapeProxy_index_idem h
  · intro v i r h
    exact valueProxy_index_idem h
  · intro p i hi
    refine ⟨?_, ?_, ?_⟩
    · rw [sharedTensorsProxy_index_eq _ hi]
      rfl
    · rw [shapeProxy_index_eq _ hi]
      rfl
    · rw [valueProxy_index_eq _ hi]
      rfl
  · intro p i0 is
    exact sharedTensorsProxy_run_miss i0 p is (SharedTensorsProxy.new p) rfl rfl

/-- Witness for C5: after the first access at index `0` on the fresh
tensor-list proxy at `[0]`, re-indexing at `0` returns the identical cached
tensor proxy, the proxy state is unchanged, and the constructor is not
invoked. -/
theorem c5_memoized_construct_once_witness :
    (⟨IntProxy.new [0, -1], [(0, SharedTensorProxy.new [0, 0])], [0]⟩ :
        SharedTensorsProxy).index 0 =
      some (SharedTensorProxy.new [0, 0],
        ⟨IntProxy.new [0, -1], [(0, SharedTensorProxy.new [0, 0])], [0]⟩, 0) :=
  c5_memoized_construct_once.1 (SharedTensorsProxy.new [0]) 0
    (SharedTensorProxy.new [0, 0],
      ⟨IntProxy.new [0, -1], [(0, SharedTensorProxy.new [0, 0])], [0]⟩, 1) rfl

/-! ### The rule solver (modelled from the spec)

The solver sources (`analyser/rules/solver.rs` and the fact lattice) are not
among the sources at hand; §4.4–§4.5 of the spec define their contract, which
the following definitions model. -/

/-- Modelled from the spec: an integer fact — a partial-knowledge value with
bottom `none` ("nothing known") and fully determined values `some k`. -/
abbrev IntFact := Option Int

/-- Modelled from the spec: `meet(a, b)` returns the most precise fact
entailed by both operands, or fails when they assert incompatible concrete
values. -/
def meetFact : IntFact → IntFact → Except Unit IntFact
  | none, b => Except.ok b
  | some a, none => Except.ok (some a)
  | some a, some b => if a = b then Except.ok (some a) else Except.error ()

/-- Modelled from the spec: a solver rule of the equality-to-literal form
(`solver.equals(inputs[0].rank, 2)`): it asserts that the fact at `path`
equals the concrete integer `value`. -/
structure SolverRule where
  path : Path
  value : Int
deriving DecidableEq

/-- The per-node fact state: facts addressed by path; an absent path holds
the bottom fact. -/
abbrev FactState := List (Path × IntFact)

/-- The fact currently stored at a path (bottom when absent). -/
def factAt : FactState → Path → IntFact
  | [], _ => none
  | (q, f) :: rest, p => if q = p then f else factAt rest p

/-- Store a fact at a path. -/
def setFact : FactState → Path → IntFact → FactState
  | [], p, f => [(p, f)]
  | (q, g) :: rest, p, f =>
    if q = p then (p, f) :: rest else (q, g) :: setFact rest p f

/-- Modelled from the spec: a solver failure names the offending rule (and
thereby the path it touches). -/
inductive SolverError : Type where
  | contradiction (rule : SolverRule)
deriving DecidableEq

/-- Modelled from the spec: evaluate one rule — `meet` the asserted literal
into the fact at the rule's path; stop with a contradiction if `meet` fails;
record progress when the fact became strictly more precise. -/
def applyRule (st : FactState) (r : SolverRule) :
    Except SolverError (FactState × Bool) :=
  match meetFact (factAt st r.path) (some r.value) with
  | Except.error _ => Except.error (SolverError.contradiction r)
  | Except.ok f =>
    if f = factAt st r.path then Except.ok (st, false)
    else Except.ok (setFact st r.path f, true)

/-- Modelled from the spec: one pass over all rules, stopping immediately on
contradiction; the boolean records whether any rule made progress. -/
def runPass (rules : List SolverRule) (st : FactState) :
    Except SolverError (FactState × Bool) :=
  match rules with
  | [] => Except.ok (st, false)
  | r :: rest =>
    match applyRule st r with
    | Except.error e => Except.error e
    | Except.ok s1 =>
      match runPass rest s1.1 with
      | Except.error e => Except.error e
      | Except.ok s2 => Except.ok (s2.1, s1.2 || s2.2)

/-- Modelled from the spec: repeat passes until one makes no progress.  The
fuel bounds the iteration; each progressing pass turns at least one bottom
fact at a rule path concrete, so `rules.length + 1` passes always suffice for
this rule form. -/
def solveLoop (rules : List SolverRule) : Nat → FactState → Except SolverError FactState
  | 0, st => Except.ok st
  | fuel + 1, st =>
    match runPass rules st with
    | Except.error e => Except.error e
    | Except.ok s1 => if s1.2 then solveLoop rules fuel s1.1 else Except.ok s1.1

/-- Modelled from the spec: `solve()` — run passes to fixpoint or
contradiction. -/
def solve (rules : List SolverRule) (st : FactState) :
    Except SolverError FactState :=
  solveLoop rules (rules.length + 1) st

/-- C7: With two rules asserting incompatible concrete facts at the same path
— one asserting the rank fact at `[0, 0, 1]` equals `2`, the other that it
equals `3` — `solve()` fails with a Contradiction naming the offending rule,
and no refinement is silently accepted: the solve does not return a refined
state. -/
theorem c7_contradictory_rules_fail :
    solve [⟨[0, 0, 1], 2⟩, ⟨[0, 0, 1], 3⟩] [] =
      Except.error (SolverError.contradiction ⟨[0, 0, 1], 3⟩) ∧
    (solve [⟨[0, 0, 1], 2⟩, ⟨[0, 0, 1], 3⟩] []).toOption = none :=
  ⟨rfl, rfl⟩

/-! ### ONNX graph parsing (`onnx/src/model.rs`)

Tensor payloads of initializers and the type protos of graph inputs/outputs
are abstracted away (their parsing is modelled as succeeding); names, node
structure and control flow follow the source.  Hash maps become association
lists where an insertion prepends (so a later insertion wins on lookup, as
for `HashMap::insert`). -/

/-- An ONNX node (`NodeProto`): name, operator type, input and output
names. -/
structure NodeProto where
  name : String
  op_type : String
  input : List String
  output : List String
deriving DecidableEq

/-- An ONNX graph (`GraphProto`), reduced to the fields `parse_graph` reads:
`init` holds the names of the `initializer` tensors. -/
structure GraphProto where
  init : List String
  input : List String
  output : List String
  node : List NodeProto
deriving DecidableEq

/-- The operator stored on a model node: either an op produced by a
registered builder (abstracted to a tag), or
`UnimplementedOp::new(output count, op type, debug description)` — the
description argument `format!("{:?}", pbnode)` is modelled by carrying the
node itself. -/
inductive OnnxOp : Type where
  | built (tag : String)
  | unimplemented (noutputs : Nat) (op_type : String) (descr : NodeProto)
deriving DecidableEq

/-- An outlet `(node id, output slot)`. -/
abbrev OutletId := Nat × Nat

/-- An inlet `(node id, input slot)`. -/
abbrev InletId := Nat × Nat

/-- A node of the inference model being built: a constant (`add_const`), a
placeholder source (`add_source`), or an operator node (`add_node`, with the
number of output facts). -/
inductive ModelNode : Type where
  | constNode (name : String)
  | sourceNode (name : String)
  | opNode (name : String) (op : OnnxOp) (nfacts : Nat)
deriving DecidableEq

/-- The inference model under construction: nodes (the id of a node is its
position), edges, outlet labels and designated model outputs. -/
structure InferenceModel where
  nodes : List ModelNode
  edges : List (OutletId × InletId)
  outletLabels : List (OutletId × String)
  outputs : List OutletId
deriving DecidableEq

/-- `InferenceModel::default()`. -/
def emptyModel : InferenceModel := ⟨[], [], [], []⟩

/-- `model.add_const(name, tensor)` (tensor abstracted): appends a constant
node and returns its outlet. -/
def InferenceModel.add_const (m : InferenceModel) (nm : String) :
    InferenceModel × OutletId :=
  (⟨m.nodes ++ [ModelNode.constNode nm], m.edges, m.outletLabels, m.outputs⟩,
    (m.nodes.length, 0))

/-- `model.add_source(name, fact)` (fact abstracted): appends a source node
and returns its outlet. -/
def InferenceModel.add_source (m : InferenceModel) (nm : String) :
    InferenceModel × OutletId :=
  (⟨m.nodes ++ [ModelNode.sourceNode nm], m.edges, m.outletLabels, m.outputs⟩,
    (m.nodes.length, 0))

/-- `model.add_node(name, op, facts)`: appends an operator node and returns
its id. -/
def InferenceModel.add_node (m : InferenceModel) (nm : String) (op : OnnxOp)
    (nfacts : Nat) : InferenceModel × Nat :=
  (⟨m.nodes ++ [ModelNode.opNode nm op nfacts], m.edges, m.outletLabels,
    m.outputs⟩, m.nodes.length)

/-- `model.add_edge(outlet, inlet)`. -/
def InferenceModel.add_edge (m : InferenceModel) (o : OutletId) (inl : InletId) :
    InferenceModel :=
  ⟨m.nodes, m.edges ++ [(o, inl)], m.outletLabels, m.outputs⟩

/-- `model.set_outlet_label(outlet, name)`. -/
def InferenceModel.set_outlet_label (m : InferenceModel) (o : OutletId)
    (nm : String) : InferenceModel :=
  ⟨m.nodes, m.edges, m.outletLabels ++ [(o, nm)], m.outputs⟩

/-- `model.nodes()[id].inputs.len()`: the number of edges wired into a
node. -/
def InferenceModel.inputsCountOf (m : InferenceModel) (id : Nat) : Nat :=
  (m.edges.filter (fun e => e.2.1 = id)).length

/-- A registered operator builder (`OnnxOpRegister` entry): may fail,
returning the built op and the closure names the node closes over. -/
abbrev OpBuilder := NodeProto → Except String (OnnxOp × List String)

/-- The op register, keyed by operator type. -/
abbrev OpRegister := List (String × OpBuilder)

/-- `op_register.0.get(op_type)`. -/
def regLookup : OpRegister → String → Option OpBuilder
  | [], _ => none
  | (k, b) :: rest, s => if k = s then some b else regLookup rest s

/-- `outlets_by_name` lookup. -/
abbrev OutletMap := List (String × OutletId)

/-- Lookup in `outlets_by_name` (head entry wins, matching HashMap overwrite
on the prepending insertions below). -/
def outletLookup : OutletMap → String → Option OutletId
  | [], _ => none
  | (k, v) :: rest, s => if k = s then some v else outletLookup rest s

/-- The node-name choice of `parse_graph` (lines 93–99): the node's own name
if non-empty, else its first output name if present and non-empty, else
`"{node count}-{op type}"`. -/
def nodeName (nodesSoFar : Nat) (n : NodeProto) : String :=
  if n.name ≠ "" then n.name
  else
    match n.output with
    | o :: _ => if o ≠ "" then o else toString nodesSoFar ++ "-" ++ n.op_type
    | [] => toString nodesSoFar ++ "-" ++ n.op_type

/-- The op-construction step of `parse_graph` (lines 108–121): a registered
builder is invoked, its failure propagating; an unregistered op type yields
`UnimplementedOp::new(node.output.len(), op_type, description)` with no
closures. -/
def buildOp (reg : OpRegister) (n : NodeProto) :
    Except String (OnnxOp × List String) :=
  match regLookup reg n.op_type with
  | some b => b n
  | none => Except.ok (OnnxOp.unimplemented n.output.length n.op_type n, [])

/-- State while processing the node list. -/
structure ParseState where
  model : InferenceModel
  outlets_by_name : OutletMap
  closures_to_wire : List (Nat × String)
deriving DecidableEq

/-- Recording of outlets and labels for the non-empty outputs of a node
(lines 123–126). -/
def registerOutputs (m : InferenceModel) (om : OutletMap) (id : Nat) :
    Nat → List String → InferenceModel × OutletMap
  | _, [] => (m, om)
  | ix, o :: rest =>
    registerOutputs (m.set_outlet_label (id, ix) o) ((o, (id, ix)) :: om) id
      (ix + 1) rest

/-- Processing of one graph node (lines 92–131): build its op, add the node,
record outlets and labels for its non-empty outputs, collect closures. -/
def processNode (reg : OpRegister) (st : ParseState) (n : NodeProto) :
    Except String ParseState :=
  match buildOp reg n with
  | Except.error e => Except.error e
  | Except.ok oc =>
    let nfacts := (n.output.filter (fun s => s ≠ "")).length
    let mid := st.model.add_node (nodeName st.model.nodes.length n) oc.1 nfacts
    let ro := registerOutputs mid.1 st.outlets_by_name mid.2 0
      (n.output.filter (fun s => s ≠ ""))
    Except.ok ⟨ro.1, ro.2,
      st.closures_to_wire ++ oc.2.map (fun c => (mid.2, c))⟩

/-- The node loop of `parse_graph`. -/
def processNodes (reg : OpRegister) :
    ParseState → List NodeProto → Except String ParseState
  | st, [] => Except.ok st
  | st, n :: rest =>
    match processNode reg st n with
    | Except.error e => Except.error e
    | Except.ok st1 => processNodes reg st1 rest

/-- State during the input/closure wiring phase. -/
structure WireState where
  model : InferenceModel
  outlets_by_name : OutletMap
  unresolved_inputs : List String
deriving DecidableEq

/-- Wiring of one node input (lines 133–141): a name with no known producer
adds a placeholder source node, appends the name to `unresolved_inputs` and
records the new outlet; in both cases the edge into inlet `(node, ix)` is
then added.  This step cannot fail. -/
def wireOneInput (st : WireState) (node : Nat) (ix : Nat) (nm : String) :
    WireState :=
  match outletLookup st.outlets_by_name nm with
  | some outlet =>
    ⟨st.model.add_edge outlet (node, ix), st.outlets_by_name,
      st.unresolved_inputs⟩
  | none =>
    let ms := st.model.add_source nm
    ⟨ms.1.add_edge ms.2 (node, ix), (nm, ms.2) :: st.outlets_by_name,
      st.unresolved_inputs ++ [nm]⟩

/-- Wiring of the non-empty inputs of one node, slots numbered from `ix`. -/
def wireInputsOfNode : WireState → Nat → Nat → List String → WireState
  | st, _, _, [] => st
  | st, node, ix, nm :: rest =>
    wireInputsOfNode (wireOneInput st node ix nm) node (ix + 1) rest

/-- The input-wiring loop over all graph nodes (lines 132–142): node `id` in
the graph is model node `id + consts`. -/
def wireAllInputs : WireState → Nat → Nat → List NodeProto → WireState
  | st, _, _, [] => st
  | st, consts, id, n :: rest =>
    wireAllInputs
      (wireInputsOfNode st (id + consts) 0 (n.input.filter (fun s => s ≠ "")))
      consts (id + 1) rest

/-- Wiring of one closure (lines 143–152): same unresolved-name handling as
inputs; the inlet slot is the node's current input count. -/
def wireClosure (st : WireState) (idc : Nat × String) : WireState :=
  match outletLookup st.outlets_by_name idc.2 with
  | some outlet =>
    ⟨st.model.add_edge outlet (idc.1, st.model.inputsCountOf idc.1),
      st.outlets_by_name, st.unresolved_inputs⟩
  | none =>
    let ms := st.model.add_source idc.2
    ⟨ms.1.add_edge ms.2 (idc.1, ms.1.inputsCountOf idc.1),
      (idc.2, ms.2) :: st.outlets_by_name, st.unresolved_inputs ++ [idc.2]⟩

/-- The closure-wiring loop. -/
def wireClosures : WireState → List (Nat × String) → WireState
  | st, [] => st
  | st, c :: rest => wireClosures (wireClosure st c) rest

/-- The graph-input phase (lines 66–83): an input backed by an initializer
becomes a constant (consuming the initializer), otherwise a source; outlets
are recorded.  Returns the model, the outlet map and the remaining
initializers. -/
def addGraphInputs :
    InferenceModel → OutletMap → List String → List String →
      InferenceModel × OutletMap × List String
  | m, om, inits, [] => (m, om, inits)
  | m, om, inits, nm :: rest =>
    if nm ∈ inits then
      let mc := m.add_const nm
      addGraphInputs mc.1 ((nm, mc.2) :: om) (inits.erase nm) rest
    else
      let ms := m.add_source nm
      addGraphInputs ms.1 ((nm, ms.2) :: om) inits rest

/-- The leftover-initializer phase (lines 87–90): remaining initializers
become constants. -/
def addConsts : InferenceModel → OutletMap → List String →
    InferenceModel × OutletMap
  | m, om, [] => (m, om)
  | m, om, nm :: rest =>
    let mc := m.add_const nm
    addConsts mc.1 ((nm, mc.2) :: om) rest

/-- The output phase (lines 153–166): each graph output must already be in
`outlets_by_name` (the Rust code indexes the map, panicking otherwise,
modelled as an error); its outlet is labelled and collected. -/
def setOutputs : InferenceModel → OutletMap → List OutletId → List String →
    Except String (InferenceModel × List OutletId)
  | m, _, acc, [] => Except.ok (m, acc)
  | m, om, acc, nm :: rest =>
    match outletLookup om nm with
    | none => Except.error "output name not found"
    | some outlet =>
      setOutputs (m.set_outlet_label outlet nm) om (acc ++ [outlet]) rest

/-- `ParseResult`. -/
structure ParseResult where
  model : InferenceModel
  unresolved_inputs : List String
  outlets_by_name : OutletMap
deriving DecidableEq

/-- `ParsingContext::parse_graph`. -/
def parse_graph (reg : OpRegister) (g : GraphProto) : Except String ParseResult :=
  let s0 := addGraphInputs emptyModel [] g.init g.input
  let s1 := addConsts s0.1 s0.2.1 s0.2.2
  let consts := s1.1.nodes.length
  match processNodes reg ⟨s1.1, s1.2, []⟩ g.node with
  | Except.error e => Except.error e
  | Except.ok stN =>
    let w1 := wireAllInputs ⟨stN.model, stN.outlets_by_name, []⟩ consts 0 g.node
    let w2 := wireClosures w1 stN.closures_to_wire
    match setOutputs w2.model w2.outlets_by_name [] g.output with
    | Except.error e => Except.error e
    | Except.ok mo =>
      Except.ok ⟨⟨mo.1.nodes, mo.1.edges, mo.1.outletLabels, mo.2⟩,
        w2.unresolved_inputs, w2.outlets_by_name⟩

/-- `ModelProto`, reduced to its optional graph. -/
structure ModelProto where
  graph : Option GraphProto
deriving DecidableEq

/-- `Onnx::parse`: requires the graph to be present (the opset-version check
only warns). -/
def onnxParse (reg : OpRegister) (proto : ModelProto) :
    Except String ParseResult :=
  match proto.graph with
  | none => Except.error "model proto does not contain a graph"
  | some g => parse_graph reg g

/-- `Onnx::model_for_proto_model`: parse, then fail iff some inputs remained
unresolved. -/
def model_for_proto_model (reg : OpRegister) (proto : ModelProto) :
    Except String InferenceModel :=
  match onnxParse reg proto with
  | Except.error e => Except.error e
  | Except.ok res =>
    if res.unresolved_inputs.length > 0 then
      Except.error "Could not resolve inputs at top-level"
    else Except.ok res.model

/-- A node whose single input has no producer anywhere in the graph. -/
def exampleNode : NodeProto := ⟨"n", "Unknown", ["x"], ["y"]⟩

/-- A graph with no inputs or initializers whose only node reads the unknown
name `x`. -/
def exampleGraph : GraphProto := ⟨[], [], ["y"], [exampleNode]⟩

/-- `set_outlet_label` does not change the node list. -/
theorem registerOutputs_nodes (id : Nat) :
    ∀ (outs : List String) (m : InferenceModel) (om : OutletMap) (ix : Nat),
      (registerOutputs m om id ix outs).1.nodes = m.nodes := by
  intro outs
  induction outs with
  | nil =>
    intro m om ix
    rfl
  | cons o rest ih =>
    intro m om ix
    rw [registerOutputs, ih]
    rfl

/-- C8: An input name with no known producer never aborts graph parsing: the
wiring step adds a placeholder source node, appends the name to the
accumulated `unresolved_inputs`, records the new outlet and continues (it
cannot fail); a known name changes nothing but the edge; the accumulated
batch is surfaced only through the returned `ParseResult`, and
`model_for_proto_model` fails exactly when that list is non-empty; on the
example graph whose node reads the unknown name `x`, parsing succeeds with
`unresolved_inputs = [x]` and a source node for `x` in the model, while
`model_for_proto_model` fails. -/
theorem c8_unresolved_inputs_batched :
    (∀ (st : WireState) (node ix : Nat) (nm : String),
      outletLookup st.outlets_by_name nm = none →
      (wireOneInput st node ix nm).unresolved_inputs =
          st.unresolved_inputs ++ [nm] ∧
        (wireOneInput st node ix nm).model.nodes =
          st.model.nodes ++ [ModelNode.sourceNode nm] ∧
        outletLookup (wireOneInput st node ix nm).outlets_by_name nm =
          some (st.model.nodes.length, 0)) ∧
    (∀ (st : WireState) (node ix : Nat) (nm : String) (o : OutletId),
      outletLookup st.outlets_by_name nm = some o →
      (wireOneInput st node ix nm).unresolved_inputs = st.unresolved_inputs ∧
        (wireOneInput st node ix nm).model.nodes = st.model.nodes) ∧
    (∀ (reg : OpRegister) (proto : ModelProto) (res : ParseResult),
      onnxParse reg proto = Except.ok res →
      (model_for_proto_model reg proto = Except.ok res.model ↔
        res.unresolved_inputs = [])) ∧
    (parse_graph [] exampleGraph).map (fun r => r.unresolved_inputs) =
      Except.ok ["x"] ∧
    (parse_graph [] exampleGraph).map (fun r => r.model.nodes) =
      Except.ok [ModelNode.opNode "n"
        (OnnxOp.unimplemented 1 "Unknown" exampleNode) 1,
        ModelNode.sourceNode "x"] ∧
    model_for_proto_model [] ⟨some exampleGraph⟩ =
      Except.error "Could not resolve inputs at top-level" := by
  refine ⟨?_, ?_, ?_, rfl, rfl, rfl⟩
  · intro st node ix nm h
    refine ⟨?_, ?_, ?_⟩ <;>
      simp [wireOneInput, h, InferenceModel.add_source, InferenceModel.add_edge,
        outletLookup]
  · intro st node ix nm o h
    exact ⟨by simp [wireOneInput, h, InferenceModel.add_edge],
      by simp [wireOneInput, h, InferenceModel.add_edge]⟩
  · intro reg proto res h
    simp only [model_for_proto_model, h]
    by_cases hlen : res.unresolved_inputs.length > 0
    · rw [if_pos hlen]
      refine ⟨fun h2 => Except.noConfusion h2, fun h2 => ?_⟩
      rw [h2] at hlen
      simp at hlen
    · rw [if_neg hlen]
      rw [Nat.not_lt, Nat.le_zero, List.length_eq_zero] at hlen
      simp [hlen]

/-- Witness for C8: wiring the unknown input name `x` from the empty wire
state adds a source node, records the name as unresolved and continues. -/
theorem c8_unresolved_inputs_batched_witness :
    (wireOneInput ⟨emptyModel, [], []⟩ 0 0 "x").unresolved_inputs =
        [] ++ ["x"] ∧
      (wireOneInput ⟨emptyModel, [], []⟩ 0 0 "x").model.nodes =
        emptyModel.nodes ++ [ModelNode.sourceNode "x"] ∧
      outletLookup (wireOneInput ⟨emptyModel, [], []⟩ 0 0 "x").outlets_by_name
          "x" =
        some (emptyModel.nodes.length, 0) :=
  c8_unresolved_inputs_batched.1 ⟨emptyModel, [], []⟩ 0 0 "x" rfl

/-- C10: A graph node whose operator type is not in the op register never
makes `parse_graph` fail on its account: the op-construction step substitutes
`UnimplementedOp` carrying the node's output count and original description
with no closures, and the node-processing step succeeds, appending exactly
that operator node to the model. -/
theorem c10_unregistered_op_never_fails :
    (∀ (reg : OpRegister) (n : NodeProto), regLookup reg n.op_type = none →
      buildOp reg n =
        Except.ok (OnnxOp.unimplemented n.output.length n.op_type n, [])) ∧
    (∀ (reg : OpRegister) (st : ParseState) (n : NodeProto),
      regLookup reg n.op_type = none →
      ∃ st1, processNode reg st n = Except.ok st1 ∧
        st1.model.nodes = st.model.nodes ++
          [ModelNode.opNode (nodeName st.model.nodes.length n)
            (OnnxOp.unimplemented n.output.length n.op_type n)
            ((n.output.filter (fun s => s ≠ "")).length)]) := by
  refine ⟨?_, ?_⟩
  · intro reg n h
    simp [buildOp, h]
  · intro reg st n h
    have hb : buildOp reg n =
        Except.ok (OnnxOp.unimplemented n.output.length n.op_type n, []) := by
      simp [buildOp, h]
    rw [processNode, hb]
    refine ⟨_, rfl, ?_⟩
    rw [registerOutputs_nodes]
    simp [InferenceModel.add_node]

/-- Witness for C10: the example node with the unregistered op type `Unknown`
yields an `UnimplementedOp` with one output, not an error. -/
theorem c10_unregistered_op_never_fails_witness :
    buildOp [] exampleNode =
      Except.ok (OnnxOp.unimplemented exampleNode.output.length
        exampleNode.op_type exampleNode, []) :=
  c10_unregistered_op_never_fails.1 [] exampleNode rfl

end Tract
